import Mathlib

/-!
Shallow embedding of the CLI shell core (CLI_SHELL.c / CLI_SHELL.h /
CLI_SHELL_COMMANDS.h).

The C module operates on a global 100-byte line buffer.  We model the raw
byte buffer as a `List Nat` (one entry per byte, the list covering the whole
backing array, not just the effective length) together with an explicit
effective length.  Machine arithmetic on `uint8_t` indices is modelled with
explicit `% 256` wrap-around where it matters.  C strings handed to `strtok`
are modelled as the byte prefix up to the recorded length, cut at the first
NUL, converted to a `String`.

Command handlers are function pointers in the C table; here the table holds
only the data fields and handlers are passed separately as a map from table
index to the pair (output the handler emits, status it returns).
-/

/-- SHELL_BUFFER_LEN from CLI_SHELL.h: capacity of the receive buffer. -/
def SHELL_BUFFER_LEN : Nat := 100

/-- MAX_ARGUMENTS from CLI_SHELL.h. -/
def MAX_ARGUMENTS : Nat := 5

/-- The shell_error enumeration from CLI_SHELL.h. -/
inductive shell_error where
  | SHELL_OK
  | SHELL_ERR
  deriving DecidableEq, Repr

/-- The responseCode_t enumeration from CLI_SHELL.h. -/
inductive responseCode_t where
  | RESPONSE_OK
  | RESPONSE_FNC_ERR
  | RESPONSE_CMD_ERR
  | RESPONSE_ARG_ERR
  deriving DecidableEq, Repr

/-- The argType_t enumeration from CLI_SHELL.h. -/
inductive argType_t where
  | arg_uint8
  | arg_uint16
  | arg_uint32
  | arg_char
  | arg_string
  | arg_float
  | arg_flag
  deriving DecidableEq, Repr

/-- Argument tokens argTkn_a .. argTkn_err are consecutive enum values
0 .. 26 in CLI_SHELL.h; we model them as the corresponding `Nat`. -/
def argTkn_err : Nat := 26

/-- shellArgument_t from CLI_SHELL.h (argContents plus the derived token). -/
structure shellArgument_t where
  argContents : String
  argToken : Nat
  deriving DecidableEq, Repr

/-- shellParserOutput_t from CLI_SHELL.h. -/
structure shellParserOutput_t where
  cmdName : String
  numArgs : Nat
  cmdArgs : List shellArgument_t
  deriving DecidableEq, Repr

/-- shellArgTemplate_t from CLI_SHELL.h. -/
structure shellArgTemplate_t where
  mandatory : Bool
  type : argType_t
  token : Nat
  deriving DecidableEq, Repr

/-- shellCmdTemplate_t from CLI_SHELL.h, data fields only; the `runner`
function pointer is supplied separately to the dispatcher. -/
structure shellCmdTemplate_t where
  cmdName : String
  helpDesc : String
  numArgs : Nat
  cmdArgsTable : List shellArgTemplate_t
  deriving DecidableEq, Repr

/-- shellBufferHandle_t from CLI_SHELL.h: the global receive mailbox. -/
structure shellBufferHandle_t where
  rxFlag : Bool
  rxBuffer : List Nat
  rxLen : Nat
  deriving DecidableEq, Repr

/-! ## Normalizer: scrubWhiteSpace (CLI_SHELL.c lines 72-107) -/

/-- One left shift of the leading-whitespace scrub: the C loop
`for (i = 0; i < currentLength - 1; i++) buf[i] = buf[i+1]`, which reads
each source byte before it is overwritten, hence the parallel rendering. -/
def shiftLeftOne (buf : List Nat) (len : Nat) : List Nat :=
  (List.range buf.length).map
    (fun i => if i < len - 1 then buf.getD (i + 1) 0 else buf.getD i 0)

/-- The leading-whitespace while loop of scrubWhiteSpace: while
`buf[0] == ' ' && currentLength > 0`, shift left and decrement the length.
The length strictly decreases, so recursion is on the length. -/
def scrubLeading : List Nat → Nat → List Nat × Nat
  | buf, 0 => (buf, 0)
  | buf, n + 1 =>
    if buf.getD 0 0 = 32 then scrubLeading (shiftLeftOne buf (n + 1)) n
    else (buf, n + 1)

/-- Wrap-around decrement of a `uint8_t`: models the C expression
`(uint8_t)(currentLength - 1)` used for `lastIndex` at line 88 of
CLI_SHELL.c.  For a zero length this wraps to 255. -/
def u8sub1 (n : Nat) : Nat := (n + 255) % 256

/-- The trailing-whitespace while loop: while
`buf[lastIndex] == ' ' && currentLength > 0`, with
`lastIndex = (uint8_t)(currentLength - 1)`, decrement the length.  The read
index for length `n + 1` is `u8sub1 (n + 1) = n`.  For length 0 the C code
still evaluates `rxBuffer[u8sub1 0] = rxBuffer[255]` (the left operand of
`&&` is evaluated first) before the `currentLength > 0` test fails; the
loop result is the same regardless of that junk read, which is what this
function returns.  The out-of-range index itself is the subject of the
claim about underflow and is exposed through `u8sub1`. -/
def scrubTrailing (buf : List Nat) : Nat → Nat
  | 0 => 0
  | n + 1 => if buf.getD n 0 = 32 then scrubTrailing buf n else n + 1

/-- The inner shift of the duplicate-whitespace scrub: the C loop
`for (j = i + 1; j < currentLength - 2; j++) buf[j] = buf[j+1]`, rendered
in parallel form: positions `s ≤ j < b` receive `buf[j+1]`. -/
def shiftSeg (buf : List Nat) (s b : Nat) : List Nat :=
  (List.range buf.length).map
    (fun j => if s ≤ j ∧ j < b then buf.getD (j + 1) 0 else buf.getD j 0)

/-- The duplicate-whitespace for loop of scrubWhiteSpace.  `i` increments on
every iteration and the length never increases, so the loop runs at most
`len` times; the final argument is fuel initialised to the starting length,
which makes the recursion structural while covering every iteration. -/
def scrubDup (buf : List Nat) (len i : Nat) : Nat → List Nat × Nat
  | 0 => (buf, len)
  | fuel + 1 =>
    if i < len then
      if buf.getD i 0 = 32 ∧ buf.getD (i + 1) 0 = 32 then
        scrubDup (shiftSeg buf (i + 1) (len - 2)) (len - 1) (i + 1) fuel
      else scrubDup buf len (i + 1) fuel
    else (buf, len)

/-- scrubWhiteSpace from CLI_SHELL.c: leading scrub, trailing scrub,
duplicate scrub, then the length is written back.  `rxLen` is a `uint32_t`
but is read into the `uint8_t` local `currentLength`, hence the `% 256`. -/
def scrubWhiteSpace (buf : List Nat) (len : Nat) : List Nat × Nat :=
  let currentLength := len % 256
  let r1 := scrubLeading buf currentLength
  let l2 := scrubTrailing r1.1 r1.2
  scrubDup r1.1 l2 0 l2

/-! ## Tokenizer (CLI_SHELL.c lines 114-193) -/

/-- getTokenFromChar from CLI_SHELL.c: bytes 97..122 map to tokens 0..25,
anything else to argTkn_err. -/
def getTokenFromChar (chrToken : Nat) : Nat :=
  if 97 ≤ chrToken ∧ chrToken ≤ 122 then chrToken - 97 else argTkn_err

/-- The byte prefix of the buffer up to the recorded length, cut at the
first NUL, as a string: this is what `strtok` sees after exctractCommand
and extractArguments memcpy the buffer into a zeroed local copy. -/
def bufString (buf : List Nat) (len : Nat) : String :=
  String.mk (((buf.take len).takeWhile (fun b => b ≠ 0)).map Char.ofNat)

/-- Accumulator pass implementing the successive `strtok(..., " ")` calls:
runs of spaces separate tokens and produce no empty tokens. -/
def splitWordsAux : List Char → List Char → List String
  | [], acc => if acc = [] then [] else [String.mk acc.reverse]
  | c :: cs, acc =>
    if c = ' ' then
      if acc = [] then splitWordsAux cs []
      else String.mk acc.reverse :: splitWordsAux cs []
    else splitWordsAux cs (c :: acc)

/-- All tokens strtok yields from a line with delimiter set " ". -/
def strtokWords (s : String) : List String :=
  splitWordsAux s.toList []

/-- Builds one shellArgument_t the way the extractArguments loop body does:
copy the token text and derive the argument token from its first byte. -/
def mkArg (s : String) : shellArgument_t :=
  { argContents := s
    argToken := getTokenFromChar ((s.toList.headD (Char.ofNat 0)).toNat) }

/-- The while loop of extractArguments (CLI_SHELL.c lines 171-187):
`while (i < MAX_ARGUMENTS && extractArg != NULL)` copies one token per
iteration; afterwards `numArgs = i`.  Returns the captured arguments and
the final counter. -/
def extractLoop : List String → Nat → List shellArgument_t × Nat
  | [], i => ([], i)
  | t :: rest, i =>
    if i < MAX_ARGUMENTS then
      let r := extractLoop rest (i + 1)
      (mkArg t :: r.1, r.2)
    else ([], i)

/-- extractArguments from CLI_SHELL.c: the first strtok token (the command)
is discarded, then up to MAX_ARGUMENTS tokens are captured. -/
def extractArguments (line : String) : List shellArgument_t × Nat :=
  extractLoop ((strtokWords line).drop 1) 0

/-! ## Validator (CLI_SHELL.c lines 203-295) -/

/-- Sign-and-digits model of `strtol(s, NULL, 10)` for the short decimal
argument strings the validator sees (leading spaces skipped, optional sign,
longest digit prefix, 0 when no digits). -/
def digitsVal (cs : List Char) : Nat :=
  cs.foldl (fun a c => a * 10 + (c.toNat - 48)) 0

/-- Decimal string conversion used by validateArgType. -/
def strtol (s : String) : Int :=
  let cs := s.toList.dropWhile (fun c => c = ' ')
  match cs with
  | [] => 0
  | c :: rest =>
    if c = '-' then -(digitsVal (rest.takeWhile Char.isDigit) : Int)
    else if c = '+' then (digitsVal (rest.takeWhile Char.isDigit) : Int)
    else (digitsVal (cs.takeWhile Char.isDigit) : Int)

/-- validateArgType from CLI_SHELL.c, kept exactly as written there: each
numeric case converts the content with strtol and tests
`if (ret < 0 && ret > BOUND) return false;` — a conjunction of the two
boundary violations.  The char case reads the first content byte (char is
unsigned on the ARM EABI target) and tests `if (ret < 32 && ret > 127)`.
The string, float and flag cases accept unconditionally. -/
def validateArgType (argDataType : argType_t) (dataString : String) : Bool :=
  match argDataType with
  | argType_t.arg_uint8 =>
    let ret := strtol dataString
    if ret < 0 ∧ ret > 255 then false else true
  | argType_t.arg_uint16 =>
    let ret := strtol dataString
    if ret < 0 ∧ ret > 65535 then false else true
  | argType_t.arg_uint32 =>
    let ret := strtol dataString
    if ret < 0 ∧ ret > 4294967295 then false else true
  | argType_t.arg_char =>
    let ret : Int := ((dataString.toList.headD (Char.ofNat 0)).toNat : Int)
    if ret < 32 ∧ ret > 127 then false else true
  | argType_t.arg_string => true
  | argType_t.arg_float => true
  | argType_t.arg_flag => true

/-- The inner j-loop of validateArgs for one mandatory template entry:
scans the parsed arguments; first component is the sticky `tokenFound`
flag, second is false exactly when some matching argument fails
validateArgType (the C code returns false from validateArgs right there). -/
def findToken (tok : Nat) (ty : argType_t) : List shellArgument_t → Bool × Bool
  | [] => (false, true)
  | a :: rest =>
    if a.argToken = tok then
      if validateArgType ty a.argContents = false then (true, false)
      else
        let r := findToken tok ty rest
        (true, r.2)
    else findToken tok ty rest

/-- The outer i-loop of validateArgs over the template entries of the
matched command:
non-mandatory entries are skipped; a type conflict or a missing mandatory
token returns false. -/
def validateArgsLoop (args : List shellArgument_t) : List shellArgTemplate_t → Bool
  | [] => true
  | t :: ts =>
    if t.mandatory then
      let r := findToken t.token t.type args
      if r.2 = false then false
      else if r.1 = false then false
      else validateArgsLoop args ts
    else validateArgsLoop args ts

/-- validateArgs from CLI_SHELL.c: the i-loop runs over
`cmdArgsTable[0 .. numArgs-1]` of the matched descriptor. -/
def validateArgs (e : shellCmdTemplate_t) (p : shellParserOutput_t) : Bool :=
  validateArgsLoop p.cmdArgs (e.cmdArgsTable.take e.numArgs)

/-! ## Matcher (CLI_SHELL.c lines 304-325) -/

/-- One iteration of the matchCommand scan: on a name match the overwritten
`commandIndex` becomes the current index, otherwise the accumulator is
kept.  `none` plays the role of the unset matchFlag. -/
def matchStep (names : List String) (nm : String) (acc : Option Nat) (i : Nat) :
    Option Nat :=
  if names.getD i "" = nm then some i else acc

/-- The matchCommand for loop run over the first `n` registry indices. -/
def matchScanTo (names : List String) (nm : String) (n : Nat) : Option Nat :=
  (List.range n).foldl (matchStep names nm) none

/-- The full matchCommand scan over `0 .. NUM_OF_COMMANDS - 1`. -/
def matchScan (names : List String) (nm : String) : Option Nat :=
  matchScanTo names nm names.length

/-- matchCommand from CLI_SHELL.c: the scan result via the out-parameter
`commandIndex` (an `int8_t`), -1 when the matchFlag never got set. -/
def matchCommand (names : List String) (nm : String) : Int :=
  match matchScan names nm with
  | some i => (i : Int)
  | none => -1

/-! ## Dispatcher and Response Encoder (CLI_SHELL.c lines 333-462) -/

/-- shellSendResponse from CLI_SHELL.c: the emitted output for each
response code.  The switch statement has cases for RESPONSE_OK,
RESPONSE_CMD_ERR and RESPONSE_ARG_ERR only; RESPONSE_FNC_ERR falls through
the switch and nothing is emitted. -/
def shellSendResponse (code : responseCode_t) : List String :=
  match code with
  | responseCode_t.RESPONSE_OK => ["-->OK!\r\n"]
  | responseCode_t.RESPONSE_CMD_ERR => ["Command Error!\r\n"]
  | responseCode_t.RESPONSE_ARG_ERR => ["Argument Error!\r\n"]
  | responseCode_t.RESPONSE_FNC_ERR => []

/-- Placeholder descriptor for the (never taken) out-of-range table read
of `List.getD`; indices produced by matchCommand are always in range. -/
def emptyTemplate : shellCmdTemplate_t :=
  { cmdName := "", helpDesc := "", numArgs := 0, cmdArgsTable := [] }

/-- getCommand from CLI_SHELL.c: match the command, on `commandIndex < 0`
emit the command-error response and fail; otherwise validate the arguments,
on failure emit the argument-error response and fail; otherwise hand back
the table index.  Result: (emitted output, found index, status). -/
def getCommand (tbl : List shellCmdTemplate_t) (p : shellParserOutput_t) :
    List String × Option Nat × shell_error :=
  let commandIndex : Int := matchCommand (tbl.map shellCmdTemplate_t.cmdName) p.cmdName
  if commandIndex < 0 then
    (shellSendResponse responseCode_t.RESPONSE_CMD_ERR, none, shell_error.SHELL_ERR)
  else if validateArgs (tbl.getD commandIndex.toNat emptyTemplate) p = false then
    (shellSendResponse responseCode_t.RESPONSE_ARG_ERR, none, shell_error.SHELL_ERR)
  else ([], some commandIndex.toNat, shell_error.SHELL_OK)

/-- Steps 1-3 of shellProcessCommand after the whitespace scrub, driven by
the strtok token list of the scrubbed buffer.  An empty token list means
exctractCommand passed NULL to `sprintf("%s")`, which is undefined
behaviour in C; that case is `none`.  Otherwise the parser output is built
(exctractCommand takes the first token, extractArguments the rest), then
getCommand runs, and on success the runner is invoked: its emitted output
is appended, but its returned status is discarded — line 404 calls
`shellCmdTemplateTable[idx].runner(&parserOutput);` without using the
result, and the function returns the still-SHELL_OK status from step 2.
Result: (output emitted in this cycle, invoked table index, returned
status). -/
def processWords (tbl : List shellCmdTemplate_t)
    (runners : Nat → List String × shell_error) :
    List String → Option (List String × Option Nat × shell_error)
  | [] => none
  | w :: rest =>
    let r := extractLoop rest 0
    let p : shellParserOutput_t := { cmdName := w, numArgs := r.2, cmdArgs := r.1 }
    match getCommand tbl p with
    | (out, some i, _) => some (out ++ (runners i).1, some i, shell_error.SHELL_OK)
    | (out, none, st) => some (out, none, st)

/-- shellProcessCommand from CLI_SHELL.c: scrub the buffer in place, then
parse, match, validate and dispatch. -/
def shellProcessCommand (tbl : List shellCmdTemplate_t)
    (runners : Nat → List String × shell_error) (buf : List Nat) (len : Nat) :
    Option (List String × Option Nat × shell_error) :=
  let scrubbed := scrubWhiteSpace buf len
  processWords tbl runners (strtokWords (bufString scrubbed.1 scrubbed.2))

/-! ## Public entry points (CLI_SHELL.c lines 481-508) -/

/-- The `memcpy(shellBuffer.rxBuffer, Buf, rxLen)` of rxShellInput.  The
destination array has `dst.length` cells (100 in the real handle); a copy
length beyond that writes past the array, which the model renders by
letting the result list grow beyond the capacity. -/
def memcpyBytes (dst src : List Nat) (n : Nat) : List Nat :=
  (List.range (max dst.length n)).map
    (fun i => if i < n then src.getD i 0 else dst.getD i 0)

/-- rxShellInput from CLI_SHELL.c: unless the first byte is a carriage
return (13), set the flag, record the length and copy the whole input —
with no comparison of Len against SHELL_BUFFER_LEN anywhere. -/
def rxShellInput (Buf : List Nat) (Len : Nat) (st : shellBufferHandle_t) :
    shellBufferHandle_t :=
  if Buf.getD 0 0 ≠ 13 then
    { rxFlag := true, rxLen := Len, rxBuffer := memcpyBytes st.rxBuffer Buf Len }
  else st

/-- checkShellStatus from CLI_SHELL.c.  The local `shell_error status;` is
assigned only inside `if (shellBuffer.rxFlag)`; when the flag is clear the
function returns the uninitialized local, modelled as `none`.  A `none`
from the pipeline (undefined behaviour inside processing) also propagates.
The state update records the in-place scrub of the buffer and the cleared
flag. -/
def checkShellStatus (tbl : List shellCmdTemplate_t)
    (runners : Nat → List String × shell_error) (st : shellBufferHandle_t) :
    Option shell_error × shellBufferHandle_t :=
  if st.rxFlag then
    let res := shellProcessCommand tbl runners st.rxBuffer st.rxLen
    let scrubbed := scrubWhiteSpace st.rxBuffer st.rxLen
    (res.map (fun r => r.2.2),
      { rxFlag := false, rxBuffer := scrubbed.1, rxLen := scrubbed.2 })
  else (none, st)

/-! ## The registry of CLI_SHELL_COMMANDS.h and concrete fixtures -/

/-- shellCmdTemplateTable from CLI_SHELL_COMMANDS.h (NUM_OF_COMMANDS = 3);
the runner fields HelpRunner, HelpRunner, PingRunner live outside the data
table in this model. -/
def shellCmdTemplateTable : List shellCmdTemplate_t :=
  [ { cmdName := "help"
      helpDesc := "help\t| Display the Help Menu\t| No Arguments\r\n"
      numArgs := 0
      cmdArgsTable := [] },
    { cmdName := "?"
      helpDesc := "?\t| Display the Help Menu\t| No Arguments\r\n"
      numArgs := 0
      cmdArgsTable := [] },
    { cmdName := "ping"
      helpDesc := "ping\t| Responds \"Pong!\"\t| No Arguments\r\n"
      numArgs := 0
      cmdArgsTable := [] } ]

/-- Runners that emit nothing and succeed. -/
def trivialRunners : Nat → List String × shell_error :=
  fun _ => ([], shell_error.SHELL_OK)

/-- Runners where the ping handler (table index 2) emits its own message
and reports failure. -/
def failingRunners : Nat → List String × shell_error :=
  fun i => if i = 2 then (["handler failed\r\n"], shell_error.SHELL_ERR)
           else ([], shell_error.SHELL_OK)

/-- The 100-byte receive array holding "a  b" (two interior spaces). -/
def bufAB : List Nat := [97, 32, 32, 98] ++ List.replicate 96 0

/-- The 100-byte receive array holding an all-space line of length 3. -/
def bufAllSpace : List Nat := [32, 32, 32] ++ List.replicate 97 0

/-- The 100-byte receive array holding "ping". -/
def bufPing : List Nat := [112, 105, 110, 103] ++ List.replicate 96 0

/-- The 100-byte receive array holding "bogus". -/
def bufBogus : List Nat := [98, 111, 103, 117, 115] ++ List.replicate 95 0

/-- An empty receive mailbox: flag clear, zeroed buffer. -/
def shellBuffer0 : shellBufferHandle_t :=
  { rxFlag := false, rxBuffer := List.replicate SHELL_BUFFER_LEN 0, rxLen := 0 }

/-- A 101-byte input line (all lowercase a), one byte over capacity. -/
def oversizedInput : List Nat := List.replicate 101 97

/-- Effective buffer content ends in a space. -/
def hasTrailingSpace (buf : List Nat) (len : Nat) : Bool :=
  decide (0 < len) && (buf.getD (len - 1) 0 == 32)

/-- Effective buffer content holds two consecutive spaces. -/
def hasDoubleSpace (buf : List Nat) (len : Nat) : Bool :=
  (List.range len).any
    (fun i => decide (i + 1 < len) && (buf.getD i 0 == 32) && (buf.getD (i + 1) 0 == 32))

/-! ## Helper lemmas -/

/-- A getD read at an in-range index yields a list member. -/
theorem getD_mem (l : List String) (i : Nat) (h : i < l.length) :
    l.getD i "" ∈ l := by
  induction l generalizing i with
  | nil => simp at h
  | cons a t ih =>
    cases i with
    | zero => simp [List.getD]
    | succ n =>
      simp only [List.getD_cons_succ]
      exact List.mem_cons_of_mem a (ih n (by simpa using h))

/-- A list member sits at some in-range index. -/
theorem mem_exists_getD (l : List String) (a : String) (h : a ∈ l) :
    ∃ i, i < l.length ∧ l.getD i "" = a := by
  induction l with
  | nil => simp at h
  | cons b t ih =>
    rcases List.mem_cons.mp h with h1 | h1
    · exact ⟨0, by simp, by simp [List.getD, h1.symm]⟩
    · obtain ⟨i, hi, hg⟩ := ih h1
      exact ⟨i + 1, by simpa using hi, by simpa [List.getD_cons_succ] using hg⟩

/-- Unrolling one iteration of the matchCommand scan. -/
theorem matchScanTo_succ (names : List String) (nm : String) (n : Nat) :
    matchScanTo names nm (n + 1) =
      if names.getD n "" = nm then some n else matchScanTo names nm n := by
  simp [matchScanTo, List.range_succ, List.foldl_append, matchStep]

/-- When the scan over the first n entries leaves the index unset, none of
those entries carries the requested name. -/
theorem matchScanTo_none (names : List String) (nm : String) :
    ∀ n, matchScanTo names nm n = none → ∀ j, j < n → names.getD j "" ≠ nm := by
  intro n
  induction n with
  | zero => intro _ j hj; exact absurd hj (Nat.not_lt_zero j)
  | succ n ih =>
    intro h j hj
    rw [matchScanTo_succ] at h
    by_cases hg : names.getD n "" = nm
    · rw [if_pos hg] at h; exact Option.noConfusion h
    · rw [if_neg hg] at h
      rcases (by omega : j < n ∨ j = n) with hc | hc
      · exact ih h j hc
      · subst hc; exact hg

/-- When the scan over the first n entries settles on index i, that entry
carries the name and no later scanned entry does: the loop overwrites the
index on every match, so the last match wins. -/
theorem matchScanTo_some (names : List String) (nm : String) :
    ∀ n i, matchScanTo names nm n = some i →
      names.getD i "" = nm ∧ i < n ∧
        ∀ j, i < j → j < n → names.getD j "" ≠ nm := by
  intro n
  induction n with
  | zero => intro i h; simp [matchScanTo] at h
  | succ n ih =>
    intro i h
    rw [matchScanTo_succ] at h
    by_cases hg : names.getD n "" = nm
    · rw [if_pos hg] at h
      have hni : n = i := Option.some.inj h
      exact ⟨hni ▸ hg, by omega, fun j hj1 hj2 => (by omega : False).elim⟩
    · rw [if_neg hg] at h
      obtain ⟨h1, h2, h3⟩ := ih i h
      refine ⟨h1, by omega, fun j hj1 hj2 => ?_⟩
      rcases (by omega : j < n ∨ j = n) with hc | hc
      · exact h3 j hj1 hc
      · subst hc; exact hg

/-- An unregistered name makes matchCommand report -1. -/
theorem matchCommand_not_found (names : List String) (nm : String)
    (h : nm ∉ names) : matchCommand names nm = -1 := by
  unfold matchCommand matchScan
  cases hm : matchScanTo names nm names.length with
  | none => rfl
  | some i =>
    obtain ⟨h1, h2, _⟩ := matchScanTo_some names nm names.length i hm
    exact absurd (h1 ▸ getD_mem names i h2) h

/-- A registered name makes matchCommand return the last matching index. -/
theorem matchCommand_found (names : List String) (nm : String) (h : nm ∈ names) :
    ∃ i : Nat, matchCommand names nm = (i : Int) ∧ names.getD i "" = nm ∧
      ∀ j, i < j → j < names.length → names.getD j "" ≠ nm := by
  obtain ⟨k, hk, hgk⟩ := mem_exists_getD names nm h
  unfold matchCommand matchScan
  cases hm : matchScanTo names nm names.length with
  | none => exact absurd hgk (matchScanTo_none names nm names.length hm k hk)
  | some i =>
    obtain ⟨h1, _, h3⟩ := matchScanTo_some names nm names.length i hm
    exact ⟨i, rfl, h1, h3⟩

/-- Closed form of the extractArguments while loop: starting at counter i,
it captures the next (MAX_ARGUMENTS - i) tokens and leaves the counter at
the number of captured tokens plus i. -/
theorem extractLoop_spec (toks : List String) :
    ∀ i : Nat, extractLoop toks i =
      ((toks.take (MAX_ARGUMENTS - i)).map mkArg,
        i + min toks.length (MAX_ARGUMENTS - i)) := by
  induction toks with
  | nil => intro i; simp [extractLoop]
  | cons t rest ih =>
    intro i
    by_cases h : i < MAX_ARGUMENTS
    · rw [extractLoop, if_pos h, ih (i + 1)]
      have hs : MAX_ARGUMENTS - i = (MAX_ARGUMENTS - (i + 1)) + 1 := by
        simp [MAX_ARGUMENTS] at h ⊢; omega
      rw [hs, List.take_succ_cons]
      refine Prod.ext ?_ ?_
      · simp
      · simp only [List.length_cons]
        omega
    · rw [extractLoop, if_neg h]
      have hz : MAX_ARGUMENTS - i = 0 := by
        simp [MAX_ARGUMENTS] at h ⊢; omega
      simp [hz]

/-- The content field of a captured argument is the captured token. -/
theorem map_argContents_mkArg (l : List String) :
    (l.map mkArg).map shellArgument_t.argContents = l := by
  induction l with
  | nil => rfl
  | cons a t ih => simp [mkArg, ih]

/-- Pipeline behaviour when the extracted command name matches no table
entry: the command-error response is the only output, the status is
SHELL_ERR and no runner index is produced. -/
theorem unmatched_helper (tbl : List shellCmdTemplate_t)
    (runners : Nat → List String × shell_error)
    (buf : List Nat) (len : Nat) (w : String) (rest : List String)
    (hw : strtokWords (bufString (scrubWhiteSpace buf len).1
            (scrubWhiteSpace buf len).2) = w :: rest)
    (hnm : ∀ e ∈ tbl, e.cmdName ≠ w) :
    shellProcessCommand tbl runners buf len =
      some (["Command Error!\r\n"], none, shell_error.SHELL_ERR) := by
  have hnot : w ∉ tbl.map shellCmdTemplate_t.cmdName := by
    intro hmem
    obtain ⟨e, he, heq⟩ := List.mem_map.mp hmem
    exact hnm e he heq
  have hmc := matchCommand_not_found (tbl.map shellCmdTemplate_t.cmdName) w hnot
  simp only [shellProcessCommand]
  rw [hw]
  simp only [processWords, getCommand, hmc]
  norm_num [shellSendResponse]

/-! ## Claim theorems -/

/-- Claim C1, evaluated at the failing input: validateArgType as written in
CLI_SHELL.c (lines 203-256) guards each numeric range with
`if (ret < 0 && ret > BOUND)`, a conjunction that is never true, so the
unsigned-8 content "999" — which the claim says must fail validation — is
accepted, exactly like the in-range "42"; the unsigned-16 case accepts
"99999" the same way. -/
theorem validateArgType_accepts_out_of_range :
    validateArgType argType_t.arg_uint8 "999" = true ∧
    validateArgType argType_t.arg_uint8 "42" = true ∧
    validateArgType argType_t.arg_uint16 "99999" = true := by decide

/-- Claim C2, evaluated at the failing input: for the all-space line of
length 3, the leading scrub of scrubWhiteSpace leaves length 0, and the
trailing scrub then computes `lastIndex = (uint8_t)(0 - 1) = 255` — an
index outside [0, length-1] and outside the 100-byte buffer — which the
while condition at line 89 reads before testing `currentLength > 0`.  The
final length does reach 0, but through an out-of-range index read. -/
theorem scrub_empty_line_index_wraps :
    (scrubWhiteSpace bufAllSpace 3).2 = 0 ∧
    (scrubLeading bufAllSpace 3).2 = 0 ∧
    u8sub1 (scrubLeading bufAllSpace 3).2 = 255 ∧
    SHELL_BUFFER_LEN ≤ u8sub1 (scrubLeading bufAllSpace 3).2 := by decide

/-- Claim C3, evaluated at the failing input: rxShellInput performs no
comparison of the incoming length against SHELL_BUFFER_LEN, so a 101-byte
line is accepted (flag set, length 101 recorded, no error reported) and
the memcpy writes 101 bytes into the 100-byte rxBuffer — the model records
the write reaching past the capacity as the buffer growing beyond it. -/
theorem rxShellInput_accepts_oversize :
    (rxShellInput oversizedInput 101 shellBuffer0).rxFlag = true ∧
    (rxShellInput oversizedInput 101 shellBuffer0).rxLen = 101 ∧
    SHELL_BUFFER_LEN <
      (rxShellInput oversizedInput 101 shellBuffer0).rxBuffer.length := by decide

/-- Claim C4, evaluated at the failing input: the shellSendResponse switch
has no RESPONSE_FNC_ERR case, and shellProcessCommand (line 404) discards
the status returned by the invoked runner.  With the stock table and a
ping runner that reports failure, the processed line "ping" produces
exactly the output of the runner itself — no function-error response is
emitted — and the pipeline even returns SHELL_OK. -/
theorem handler_failure_unreported :
    shellSendResponse responseCode_t.RESPONSE_FNC_ERR = [] ∧
    shellProcessCommand shellCmdTemplateTable failingRunners bufPing 4 =
      some (["handler failed\r\n"], some 2, shell_error.SHELL_OK) := by decide

/-- Claim C5, evaluated at the failing input: normalizing "a  b" (one run
of two interior spaces) yields length 3 with the buffer bytes unchanged,
i.e. effective content "a  " — which still ends in a space and still holds
a run of two spaces.  The duplicate-space pass decremented the length but
its inner shift loop (`j < currentLength - 2`) never moved a byte. -/
theorem scrub_leaves_double_space :
    (scrubWhiteSpace bufAB 4).2 = 3 ∧
    hasTrailingSpace (scrubWhiteSpace bufAB 4).1 (scrubWhiteSpace bufAB 4).2 = true ∧
    hasDoubleSpace (scrubWhiteSpace bufAB 4).1 (scrubWhiteSpace bufAB 4).2 = true := by
  decide

/-- Claim C6, evaluated at the failing input: starting from "a  b" with
length 4, one scrubWhiteSpace pass gives length 3 (content "a  "), while a
second pass over that result strips the two now-trailing spaces down to
length 1 — so normalizing twice differs from normalizing once. -/
theorem scrub_not_idempotent :
    scrubWhiteSpace (scrubWhiteSpace bufAB 4).1 (scrubWhiteSpace bufAB 4).2 ≠
      scrubWhiteSpace bufAB 4 := by decide

/-- Claim C7: matchCommand performs an exact, case-sensitive scan of the
registry names; a registered name yields the index of the last entry
carrying it (the loop overwrites the index on every match), and an
unregistered name yields the distinguished result -1. -/
theorem matchCommand_resolution (names : List String) (nm : String) :
    (nm ∈ names → ∃ i : Nat, matchCommand names nm = (i : Int) ∧
      names.getD i "" = nm ∧
      ∀ j, i < j → j < names.length → names.getD j "" ≠ nm) ∧
    (nm ∉ names → matchCommand names nm = -1) :=
  ⟨fun h => matchCommand_found names nm h,
   fun h => matchCommand_not_found names nm h⟩

/-- Witness for C7 at the stock registry: "ping" resolves to index 2 (the
last and only match) and "bogus" resolves to -1. -/
theorem matchCommand_resolution_witness :
    (∃ i : Nat, matchCommand ["help", "?", "ping"] "ping" = (i : Int) ∧
      (["help", "?", "ping"] : List String).getD i "" = "ping" ∧
      ∀ j, i < j → j < (["help", "?", "ping"] : List String).length →
        (["help", "?", "ping"] : List String).getD j "" ≠ "ping") ∧
    matchCommand ["help", "?", "ping"] "bogus" = -1 :=
  ⟨(matchCommand_resolution ["help", "?", "ping"] "ping").1 (by decide),
   (matchCommand_resolution ["help", "?", "ping"] "bogus").2 (by decide)⟩

/-- Claim C8: for every input line, extractArguments captures exactly the
tokens after the command up to MAX_ARGUMENTS, silently dropping the rest,
and numArgs equals the number of captured arguments (hence at most 5). -/
theorem extractArguments_caps_at_five (line : String) :
    ((extractArguments line).1).map shellArgument_t.argContents =
      ((strtokWords line).drop 1).take MAX_ARGUMENTS ∧
    (extractArguments line).2 = ((extractArguments line).1).length ∧
    ((extractArguments line).1).length ≤ MAX_ARGUMENTS := by
  have hs := extractLoop_spec ((strtokWords line).drop 1) 0
  unfold extractArguments
  rw [hs]
  refine ⟨?_, ?_, ?_⟩
  · rw [Nat.sub_zero]; exact map_argContents_mkArg _
  · simp [List.length_take]; omega
  · simp [List.length_take, MAX_ARGUMENTS]

/-- Claim C9: a processed line whose extracted command name matches no
registry entry makes the pipeline emit exactly the "Command Error!" CRLF
response, return SHELL_ERR for the cycle, and invoke no handler. -/
theorem unmatched_command_error (tbl : List shellCmdTemplate_t)
    (runners : Nat → List String × shell_error)
    (buf : List Nat) (len : Nat) (w : String) (rest : List String)
    (hw : strtokWords (bufString (scrubWhiteSpace buf len).1
            (scrubWhiteSpace buf len).2) = w :: rest)
    (hnm : ∀ e ∈ tbl, e.cmdName ≠ w) :
    shellProcessCommand tbl runners buf len =
      some (["Command Error!\r\n"], none, shell_error.SHELL_ERR) :=
  unmatched_helper tbl runners buf len w rest hw hnm

/-- Witness for C9: the line "bogus" against the stock registry emits
exactly the command-error response with no handler invoked. -/
theorem unmatched_command_error_witness :
    shellProcessCommand shellCmdTemplateTable trivialRunners bufBogus 5 =
      some (["Command Error!\r\n"], none, shell_error.SHELL_ERR) :=
  unmatched_command_error shellCmdTemplateTable trivialRunners bufBogus 5
    "bogus" [] (by decide) (by decide)

/-- Claim C10, evaluated at the failing input: with the pending flag clear,
checkShellStatus returns its local `status` variable without ever assigning
it — an indeterminate value, modelled as `none` — while leaving the mailbox
untouched. -/
theorem checkShellStatus_idle_indeterminate :
    (checkShellStatus shellCmdTemplateTable trivialRunners shellBuffer0).1 = none ∧
    (checkShellStatus shellCmdTemplateTable trivialRunners shellBuffer0).2 =
      shellBuffer0 := by decide
